import Mathlib

/-!
Verification of the Chemu CHIP-8 interpreter core (decoder and executor).

The definitions below are a shallow embedding of the Rust sources:
  - machine.rs   : the Machine state, exec_next, exec_instr, Register
  - instruction.rs : the Instruction enum and the decode function
  - display.rs   : the Display pixel grid and the draw and clear operations
  - keyboard.rs  : next_key, modelled as consuming a stream of key-down values

Machine words are modelled as Nat with explicit truncation (mod 256 for u8,
mod 65536 for u16) exactly where the Rust types wrap or cast.  Vec indexing
out of bounds (a Rust panic) is not modelled: memory and the register file
are total functions from addresses to byte values, which is faithful for all
executions that stay in bounds, as every property below does.
-/

namespace Chemu

/-- Embeds the Rust enum `Register` of machine.rs: the sixteen data registers. -/
inductive Register
  | V0 | V1 | V2 | V3 | V4 | V5 | V6 | V7
  | V8 | V9 | VA | VB | VC | VD | VE | VF
deriving DecidableEq, Repr

/-- The `as usize` cast of a register, i.e. its enum discriminant. -/
def Register.toNat : Register → Nat
  | .V0 => 0
  | .V1 => 1
  | .V2 => 2
  | .V3 => 3
  | .V4 => 4
  | .V5 => 5
  | .V6 => 6
  | .V7 => 7
  | .V8 => 8
  | .V9 => 9
  | .VA => 10
  | .VB => 11
  | .VC => 12
  | .VD => 13
  | .VE => 14
  | .VF => 15

/-- Embeds `RegisterParseError` of machine.rs (carries the offending value). -/
structure RegisterParseError where
  value : Nat
deriving DecidableEq, Repr

/-- Embeds `impl TryFrom<u16> for Register` of machine.rs. -/
def Register.tryFrom (value : Nat) : Except RegisterParseError Register :=
  match value with
  | 0 => .ok .V0
  | 1 => .ok .V1
  | 2 => .ok .V2
  | 3 => .ok .V3
  | 4 => .ok .V4
  | 5 => .ok .V5
  | 6 => .ok .V6
  | 7 => .ok .V7
  | 8 => .ok .V8
  | 9 => .ok .V9
  | 10 => .ok .VA
  | 11 => .ok .VB
  | 12 => .ok .VC
  | 13 => .ok .VD
  | 14 => .ok .VE
  | 15 => .ok .VF
  | _ => .error ⟨value⟩

/-- Embeds the Rust enum `Instruction` of instruction.rs.  Operand payloads
are Nat standing for u16 addresses, u8 literals and 4-bit lengths. -/
inductive Instruction
  | Sys (addr : Nat)
  | Clr
  | Ret
  | Jmp (addr : Nat)
  | Call (addr : Nat)
  | SeImm (register : Register) (value : Nat)
  | SneImm (register : Register) (value : Nat)
  | SeReg (reg1 : Register) (reg2 : Register)
  | LdImm (register : Register) (value : Nat)
  | AddImm (register : Register) (value : Nat)
  | LdReg (dest : Register) (src : Register)
  | Or (dest : Register) (src : Register)
  | And (dest : Register) (src : Register)
  | Xor (dest : Register) (src : Register)
  | AddReg (dest : Register) (src : Register)
  | Sub (dest : Register) (src : Register)
  | Shr (dest : Register) (src : Register)
  | SubNeg (dest : Register) (src : Register)
  | Shl (dest : Register) (src : Register)
  | SneReg (reg1 : Register) (reg2 : Register)
  | LdAddr (addr : Nat)
  | JmpOff (base_addr : Nat)
  | Rnd (register : Register) (mask : Nat)
  | Drw (x : Register) (y : Register) (length : Nat)
  | Skp (keycode : Register)
  | SkpNeg (keycode : Register)
  | ReadDelay (register : Register)
  | LdKey (register : Register)
  | StrDelay (register : Register)
  | StrSound (register : Register)
  | AddAddr (register : Register)
  | LdDigit (register : Register)
  | LdBcd (register : Register)
  | StrArray (endReg : Register)
  | LdArray (endReg : Register)
deriving DecidableEq, Repr

/-- Embeds `DecodeErrorKind` of instruction.rs. -/
inductive DecodeErrorKind
  | IllegalOpCode
  | RegisterDecodeError (register_error : RegisterParseError)
deriving DecidableEq, Repr

/-- Embeds `DecodeInstructionError` of instruction.rs. -/
structure DecodeInstructionError where
  instr : Nat
  error_kind : DecodeErrorKind
deriving DecidableEq, Repr

/-- Embeds `DecodeInstructionError::from_register_decode`. -/
def DecodeInstructionError.from_register_decode (instr : Nat)
    (register_error : RegisterParseError) : DecodeInstructionError :=
  ⟨instr, .RegisterDecodeError register_error⟩

/-- The `try_into().map_err(...)?` idiom of decode: convert a nibble to a
register, wrapping any failure into a `DecodeInstructionError`. -/
def decodeReg (instr nib : Nat) : Except DecodeInstructionError Register :=
  match Register.tryFrom nib with
  | .ok r => .ok r
  | .error e => .error (DecodeInstructionError.from_register_decode instr e)

/-- Embeds `decode` of instruction.rs: match on the top nibble first, then
on the low byte or low nibble for the multi-instruction families. -/
def decode (instr : Nat) : Except DecodeInstructionError Instruction :=
  match instr &&& 0xF000 with
  | 0x0000 =>
    match instr with
    | 0x00E0 => .ok .Clr
    | 0x00EE => .ok .Ret
    | _ => .ok (.Sys (instr &&& 0x0FFF))
  | 0x1000 => .ok (.Jmp (instr &&& 0x0FFF))
  | 0x2000 => .ok (.Call (instr &&& 0x0FFF))
  | 0x3000 =>
    match decodeReg instr ((instr &&& 0x0F00) >>> 8) with
    | .error e => .error e
    | .ok register => .ok (.SeImm register (instr % 256))
  | 0x4000 =>
    match decodeReg instr ((instr &&& 0x0F00) >>> 8) with
    | .error e => .error e
    | .ok register => .ok (.SneImm register (instr % 256))
  | 0x5000 =>
    match instr &&& 0x000F with
    | 0 =>
      match decodeReg instr ((instr &&& 0x0F00) >>> 8) with
      | .error e => .error e
      | .ok reg1 =>
        match decodeReg instr ((instr &&& 0x00F0) >>> 4) with
        | .error e => .error e
        | .ok reg2 => .ok (.SeReg reg1 reg2)
    | _ => .error ⟨instr, .IllegalOpCode⟩
  | 0x6000 =>
    match decodeReg instr ((instr &&& 0x0F00) >>> 8) with
    | .error e => .error e
    | .ok register => .ok (.LdImm register (instr % 256))
  | 0x7000 =>
    match decodeReg instr ((instr &&& 0x0F00) >>> 8) with
    | .error e => .error e
    | .ok register => .ok (.AddImm register (instr % 256))
  | 0x8000 =>
    match decodeReg instr ((instr &&& 0x0F00) >>> 8) with
    | .error e => .error e
    | .ok dest =>
      match decodeReg instr ((instr &&& 0x00F0) >>> 4) with
      | .error e => .error e
      | .ok src =>
        match instr &&& 0x000F with
        | 0x0 => .ok (.LdReg dest src)
        | 0x1 => .ok (.Or dest src)
        | 0x2 => .ok (.And dest src)
        | 0x3 => .ok (.Xor dest src)
        | 0x4 => .ok (.AddReg dest src)
        | 0x5 => .ok (.Sub dest src)
        | 0x6 => .ok (.Shr dest src)
        | 0x7 => .ok (.SubNeg dest src)
        | 0xE => .ok (.Shl dest src)
        | _ => .error ⟨instr, .IllegalOpCode⟩
  | 0x9000 =>
    match instr &&& 0x000F with
    | 0 =>
      match decodeReg instr ((instr &&& 0x0F00) >>> 8) with
      | .error e => .error e
      | .ok reg1 =>
        match decodeReg instr ((instr &&& 0x00F0) >>> 4) with
        | .error e => .error e
        | .ok reg2 => .ok (.SneReg reg1 reg2)
    | _ => .error ⟨instr, .IllegalOpCode⟩
  | 0xA000 => .ok (.LdAddr (instr &&& 0x0FFF))
  | 0xB000 => .ok (.JmpOff (instr &&& 0x0FFF))
  | 0xC000 =>
    match decodeReg instr ((instr &&& 0x0F00) >>> 8) with
    | .error e => .error e
    | .ok register => .ok (.Rnd register (instr % 256))
  | 0xD000 =>
    match decodeReg instr ((instr &&& 0x0F00) >>> 8) with
    | .error e => .error e
    | .ok reg_x =>
      match decodeReg instr ((instr &&& 0x00F0) >>> 4) with
      | .error e => .error e
      | .ok reg_y => .ok (.Drw reg_x reg_y (instr &&& 0x000F))
  | 0xE000 =>
    match decodeReg instr ((instr &&& 0x0F00) >>> 8) with
    | .error e => .error e
    | .ok register =>
      match instr &&& 0x00FF with
      | 0x009E => .ok (.Skp register)
      | 0x00A1 => .ok (.SkpNeg register)
      | _ => .error ⟨instr, .IllegalOpCode⟩
  | 0xF000 =>
    match decodeReg instr ((instr &&& 0x0F00) >>> 8) with
    | .error e => .error e
    | .ok register =>
      match instr &&& 0x00FF with
      | 0x0007 => .ok (.ReadDelay register)
      | 0x000A => .ok (.LdKey register)
      | 0x0015 => .ok (.StrDelay register)
      | 0x0018 => .ok (.StrSound register)
      | 0x001E => .ok (.AddAddr register)
      | 0x0029 => .ok (.LdDigit register)
      | 0x0033 => .ok (.LdBcd register)
      | 0x0055 => .ok (.StrArray register)
      | 0x0065 => .ok (.LdArray register)
      | _ => .error ⟨instr, .IllegalOpCode⟩
  | _ => .error ⟨instr, .IllegalOpCode⟩

/-! ## Display (display.rs) -/

/-- The pixel grid of display.rs: `pixels[row][col]`, i.e. indexed by row
(the y coordinate) then by column (the x coordinate), 32 rows by 64 columns. -/
abbrev Pixels := Nat → Nat → Bool

/-- Constant `WIDTH` of display.rs. -/
def WIDTH : Nat := 64

/-- Constant `HEIGHT` of display.rs. -/
def HEIGHT : Nat := 32

/-- The single pixel toggle `pixels[r][c] = !pixels[r][c]` of Display::draw. -/
def flipPixel (p : Pixels) (r c : Nat) : Pixels :=
  fun r' c' => if r' = r ∧ c' = c then !(p r' c') else p r' c'

/-- The inner column loop of Display::draw for one sprite row: iterate the
remaining count in the second argument with current column index j; the mask
after j right shifts is `0x80 >>> j`, and a set bit flips the pixel at row
`yi % HEIGHT`, column `(x + j) % WIDTH`. -/
def drawCols (x yi row : Nat) : Nat → Nat → Pixels → Pixels
  | _, 0, p => p
  | j, n + 1, p =>
    drawCols x yi row (j + 1) n
      (if (0x80 >>> j) &&& row ≠ 0 then flipPixel p (yi % HEIGHT) ((x + j) % WIDTH) else p)

/-- The outer row loop of Display::draw: i is the current sprite row index. -/
def drawRows (x y : Nat) : Nat → List Nat → Pixels → Pixels
  | _, [], p => p
  | i, row :: rest, p => drawRows x y (i + 1) rest (drawCols x (y + i) row 0 8 p)

/-- Embeds `Display::draw` of display.rs. -/
def Display.draw (p : Pixels) (x y : Nat) (sprite : List Nat) : Pixels :=
  drawRows x y 0 sprite p

/-- Embeds `Display::clear` of display.rs. -/
def Display.clear : Pixels := fun _ _ => false

/-! ## Machine state (machine.rs) -/

/-- Embeds the state fields of the Rust struct `Machine` (machine.rs).  The
register file and memory are total functions from index to byte value; the
display pixel grid replaces the `Display` collaborator, and the keyboard is
passed to the executor separately (a pressed predicate and a stream of
key-down values). -/
structure Machine where
  registers : Nat → Nat
  address_register : Nat
  program_counter : Nat
  stack_pointer : Nat
  delay_timer : Nat
  sound_timer : Nat
  memory : Nat → Nat
  pixels : Pixels

/-- Pointwise update of a function representing a register file or memory. -/
def updf (f : Nat → Nat) (i v : Nat) : Nat → Nat :=
  fun j => if j = i then v else f j

/-- Embeds `Machine::read_address`: a big-endian u16 read of two bytes. -/
def Machine.read_address (m : Machine) (address : Nat) : Nat :=
  m.memory address * 256 + m.memory (address + 1)

/-- Rust `u8::overflowing_add`: the wrapped sum and the carry-out flag. -/
def overflowing_add (a b : Nat) : Nat × Bool :=
  ((a + b) % 256, decide (255 < a + b))

/-- Rust `u8::overflowing_sub` for byte values: the wrapped difference and
the borrow flag (true exactly when a < b). -/
def overflowing_sub (a b : Nat) : Nat × Bool :=
  ((a + 256 - b) % 256, decide (a < b))

/-- Outcome of one executor step.  `ok` is normal completion; `panic` is a
Rust panic (`unwrap` on a decode error, or the `unimplemented!()` catch-all);
`incomplete` means the step did not finish within the key-event budget (the
blocking key loop); `err` would be an error value returned to the caller —
the Rust `exec_next` has return type unit, so no execution path produces it. -/
inductive StepOutcome
  | ok (m : Machine)
  | panic
  | incomplete
  | err (e : DecodeInstructionError)

/-- The `loop` body of the LdKey arm in exec_instr (machine.rs lines
187-190): fetch the next key-down value from the stream, store it in the
register, and repeat; the loop has no break, so it only stops when the
key-event budget (fuel, or the stream itself) runs out, yielding
`incomplete`. -/
def ldKeyLoop (register : Register) : Nat → List Nat → Machine → StepOutcome
  | 0, _, _ => .incomplete
  | _ + 1, [], _ => .incomplete
  | fuel + 1, key :: rest, m =>
    ldKeyLoop register fuel rest
      { m with registers := updf m.registers register.toNat key }

/-- The memory writes of the StrArray arm: `for i in 0..end`, in machine.rs an
ascending loop `memory[address_register + i] = registers[i]`; the loop bound is
exclusive, so n writes happen for end value n.  The writes target pairwise
distinct addresses and never read memory, so accumulation order is immaterial. -/
def storeRange (mem regs : Nat → Nat) (ar : Nat) : Nat → (Nat → Nat)
  | 0 => mem
  | n + 1 => updf (storeRange mem regs ar n) (ar + n) (regs n)

/-- The register writes of the LdArray arm: `for i in 0..end`, in machine.rs an
ascending loop `registers[i] = memory[address_register + i]` with exclusive
bound. -/
def loadRange (regs mem : Nat → Nat) (ar : Nat) : Nat → (Nat → Nat)
  | 0 => regs
  | n + 1 => updf (loadRange regs mem ar n) n (mem (ar + n))

/-- The first match of `Machine::exec_instr` (machine.rs): instructions that
do not alter control flow mutate registers, memory, timers, the address
register or the display; the control-flow opcodes are no-ops here; `Sys` is
the only variant reaching the `unimplemented!()` catch-all. -/
def exec_value (rnd : Nat) (keys : List Nat) (fuel : Nat) (i : Instruction)
    (m : Machine) : StepOutcome :=
  match i with
  | .LdImm register value =>
    .ok { m with registers := updf m.registers register.toNat value }
  | .AddImm register value =>
    let v := (m.registers register.toNat + value) % 256
    .ok { m with registers := updf m.registers register.toNat v }
  | .LdReg dest src =>
    .ok { m with registers := updf m.registers dest.toNat (m.registers src.toNat) }
  | .Or dest src =>
    let v := m.registers dest.toNat ||| m.registers src.toNat
    .ok { m with registers := updf m.registers dest.toNat v }
  | .And dest src =>
    let v := m.registers dest.toNat &&& m.registers src.toNat
    .ok { m with registers := updf m.registers dest.toNat v }
  | .Xor dest src =>
    let v := m.registers dest.toNat ^^^ m.registers src.toNat
    .ok { m with registers := updf m.registers dest.toNat v }
  | .AddReg dest src =>
    let res := overflowing_add (m.registers dest.toNat) (m.registers src.toNat)
    let regs := updf (updf m.registers dest.toNat res.1) Register.VF.toNat
      (if res.2 then 1 else 0)
    .ok { m with registers := regs }
  | .Sub dest src =>
    let res := overflowing_sub (m.registers dest.toNat) (m.registers src.toNat)
    let regs := updf (updf m.registers dest.toNat res.1) Register.VF.toNat
      (if res.2 then 1 else 0)
    .ok { m with registers := regs }
  | .Shr dest src =>
    let value := m.registers src.toNat
    let regs := updf (updf m.registers dest.toNat (value >>> 1)) Register.VF.toNat
      (value &&& 0x1)
    .ok { m with registers := regs }
  | .SubNeg dest src =>
    let res := overflowing_sub (m.registers src.toNat) (m.registers dest.toNat)
    let regs := updf (updf m.registers dest.toNat res.1) Register.VF.toNat
      (if res.2 then 1 else 0)
    .ok { m with registers := regs }
  | .Shl dest src =>
    let value := m.registers src.toNat
    let regs := updf (updf m.registers dest.toNat ((value <<< 1) % 256)) Register.VF.toNat
      (value &&& 0x80)
    .ok { m with registers := regs }
  | .LdAddr addr => .ok { m with address_register := addr }
  | .Rnd register mask =>
    .ok { m with registers := updf m.registers register.toNat (rnd &&& mask) }
  | .ReadDelay register =>
    .ok { m with registers := updf m.registers register.toNat m.delay_timer }
  | .StrDelay register => .ok { m with delay_timer := m.registers register.toNat }
  | .StrSound register => .ok { m with sound_timer := m.registers register.toNat }
  | .AddAddr register =>
    .ok { m with address_register := m.address_register + m.registers register.toNat }
  | .LdDigit register =>
    .ok { m with address_register := (m.registers register.toNat * 5) % 256 }
  | .LdBcd register =>
    let value := m.registers register.toNat
    let mem := updf (updf (updf m.memory m.address_register (value / 100))
      (m.address_register + 1) ((value % 100) / 10))
      (m.address_register + 2) (value % 10)
    .ok { m with memory := mem }
  | .StrArray endReg =>
    .ok { m with memory := storeRange m.memory m.registers m.address_register endReg.toNat }
  | .LdArray endReg =>
    .ok { m with registers := loadRange m.registers m.memory m.address_register endReg.toNat }
  | .Clr => .ok { m with pixels := Display.clear }
  | .Drw x y length =>
    let sprite := (List.range length).map (fun k => m.memory (m.address_register + k))
    .ok { m with pixels :=
            Display.draw m.pixels (m.registers x.toNat) (m.registers y.toNat) sprite }
  | .LdKey register => ldKeyLoop register fuel keys m
  | .Ret => .ok m
  | .Jmp _ => .ok m
  | .Call _ => .ok m
  | .SeImm _ _ => .ok m
  | .SneImm _ _ => .ok m
  | .SeReg _ _ => .ok m
  | .SneReg _ _ => .ok m
  | .JmpOff _ => .ok m
  | .Skp _ => .ok m
  | .SkpNeg _ => .ok m
  | .Sys _ => .panic

/-- Constant `OPCODE_SIZE` of machine.rs. -/
def OPCODE_SIZE : Nat := 2

/-- Constant `ADDR_SIZE` of machine.rs. -/
def ADDR_SIZE : Nat := 2

/-- The second match of `Machine::exec_instr`: instructions that modify the
program counter; everything else falls to the default advance by
`OPCODE_SIZE`. -/
def exec_flow (pressed : Nat → Bool) (i : Instruction) (m : Machine) : Machine :=
  match i with
  | .Jmp addr => { m with program_counter := addr }
  | .Call addr =>
    let ret_addr := (m.program_counter + OPCODE_SIZE) % 65536
    { m with
      memory := updf (updf m.memory m.stack_pointer (ret_addr / 256))
        (m.stack_pointer + 1) (ret_addr % 256),
      stack_pointer := m.stack_pointer + ADDR_SIZE,
      program_counter := addr }
  | .Ret =>
    { m with
      stack_pointer := m.stack_pointer - ADDR_SIZE,
      program_counter := m.read_address (m.stack_pointer - ADDR_SIZE) }
  | .SeImm register value =>
    if m.registers register.toNat = value then
      { m with program_counter := m.program_counter + OPCODE_SIZE * 2 }
    else { m with program_counter := m.program_counter + OPCODE_SIZE }
  | .SneImm register value =>
    if m.registers register.toNat ≠ value then
      { m with program_counter := m.program_counter + OPCODE_SIZE * 2 }
    else { m with program_counter := m.program_counter + OPCODE_SIZE }
  | .SeReg reg1 reg2 =>
    if m.registers reg1.toNat = m.registers reg2.toNat then
      { m with program_counter := m.program_counter + OPCODE_SIZE * 2 }
    else { m with program_counter := m.program_counter + OPCODE_SIZE }
  | .SneReg reg1 reg2 =>
    if m.registers reg1.toNat ≠ m.registers reg2.toNat then
      { m with program_counter := m.program_counter + OPCODE_SIZE * 2 }
    else { m with program_counter := m.program_counter + OPCODE_SIZE }
  | .JmpOff base_addr =>
    { m with program_counter := (base_addr + m.registers Register.V0.toNat) % 65536 }
  | .Skp keycode =>
    if pressed (m.registers keycode.toNat) then
      { m with program_counter := m.program_counter + OPCODE_SIZE * 2 }
    else { m with program_counter := m.program_counter + OPCODE_SIZE }
  | .SkpNeg keycode =>
    if !pressed (m.registers keycode.toNat) then
      { m with program_counter := m.program_counter + OPCODE_SIZE * 2 }
    else { m with program_counter := m.program_counter + OPCODE_SIZE }
  | _ => { m with program_counter := m.program_counter + OPCODE_SIZE }

/-- Embeds `Machine::exec_instr`: the value-effect phase followed, on normal
completion, by the control-flow phase. -/
def exec_instr (rnd : Nat) (keys : List Nat) (pressed : Nat → Bool) (fuel : Nat)
    (i : Instruction) (m : Machine) : StepOutcome :=
  match exec_value rnd keys fuel i m with
  | .ok m1 => .ok (exec_flow pressed i m1)
  | o => o

/-- The instruction fetch of `Machine::exec_next`: a big-endian u16 from the
two bytes at the program counter. -/
def fetch (m : Machine) : Nat :=
  m.memory m.program_counter * 256 + m.memory (m.program_counter + 1)

/-- Embeds `Machine::exec_next`: fetch, decode, execute.  The Rust code calls
`.unwrap()` on the decode result, so a decode error is a panic — `exec_next`
returns unit and has no error channel, hence no path yields `.err`. -/
def exec_next (rnd : Nat) (keys : List Nat) (pressed : Nat → Bool) (fuel : Nat)
    (m : Machine) : StepOutcome :=
  match decode (fetch m) with
  | .error _ => .panic
  | .ok i => exec_instr rnd keys pressed fuel i m

/-! ## Concrete machines and outcome projections -/

/-- Selects the machine of a normal step outcome, with a default otherwise. -/
def theMachine (o : StepOutcome) (d : Machine) : Machine :=
  match o with
  | .ok m => m
  | _ => d

/-- Whether a step outcome is an error value returned to the caller. -/
def StepOutcome.isErrValue : StepOutcome → Bool
  | .err _ => true
  | _ => false

/-- The machine state built by `Machine::from_file` for an all-zero program
image, with the digit font bytes left at zero (no property below reads them):
registers zeroed, program counter at PROGRAM_START = 512, stack pointer at
STACK_START = 80. -/
def zeroMachine : Machine where
  registers := fun _ => 0
  address_register := 0
  program_counter := 512
  stack_pointer := 80
  delay_timer := 0
  sound_timer := 0
  memory := fun _ => 0
  pixels := fun _ _ => false

/-- A machine whose register V0 holds 5 and register V1 holds 3. -/
def subMachine : Machine :=
  { zeroMachine with registers := updf (updf zeroMachine.registers 0 5) 1 3 }

/-! ## Claim C1: the subtraction borrow flag -/

/-- Claim C1 evaluated on the code at the claimed inputs.  With destination
value 5 and source value 3 the Sub opcode stores 2 but sets register 15 to 0,
and with destination 3, source 5 it stores 0xFE and sets register 15 to 1 —
the opposite of the claimed no-borrow convention: machine.rs sets the flag to
1 exactly when a borrow occurred, contradicting the doc comment of
Instruction::Sub in instruction.rs.  SubNeg with destination 5, source 3 (a
borrow for src minus dest) likewise sets register 15 to 1 where the claim
requires 0. -/
theorem C1_sub_flag_at_failing_input :
    (theMachine (exec_instr 0 [] (fun _ => false) 0 (.Sub .V0 .V1) subMachine)
        zeroMachine).registers 0 = 2 ∧
    (theMachine (exec_instr 0 [] (fun _ => false) 0 (.Sub .V0 .V1) subMachine)
        zeroMachine).registers 15 = 0 ∧
    (theMachine (exec_instr 0 [] (fun _ => false) 0 (.Sub .V1 .V0) subMachine)
        zeroMachine).registers 1 = 0xFE ∧
    (theMachine (exec_instr 0 [] (fun _ => false) 0 (.Sub .V1 .V0) subMachine)
        zeroMachine).registers 15 = 1 ∧
    (theMachine (exec_instr 0 [] (fun _ => false) 0 (.SubNeg .V0 .V1) subMachine)
        zeroMachine).registers 15 = 1 :=
  ⟨by decide, by decide, by decide, by decide, by decide⟩

/-! ## Claim C2: array store and load range -/

/-- A machine whose registers V0 to V3 hold 10, 20, 30, 40 and whose address
register holds 1024. -/
def arrayMachine : Machine :=
  { zeroMachine with
    registers := updf (updf (updf (updf zeroMachine.registers 0 10) 1 20) 2 30) 3 40
    address_register := 1024 }

/-- The machine after executing StrArray with end register V3 on
`arrayMachine`. -/
def arrayStored : Machine :=
  theMachine (exec_instr 0 [] (fun _ => false) 0 (.StrArray .V3) arrayMachine) zeroMachine

/-- The machine after the round trip of claim C2: store through V3, zero the
register file, load back through V3 from the same address. -/
def arrayRoundTrip : Machine :=
  theMachine (exec_instr 0 [] (fun _ => false) 0 (.LdArray .V3)
    { arrayStored with registers := fun _ => 0 }) zeroMachine

/-- Claim C2 evaluated on the code.  The store and load loops of machine.rs
iterate `for i in 0..end` with an exclusive bound, so with end register V3
only registers V0, V1 and V2 are copied: after the claimed round trip V3
holds 0, not its original 40, and the byte at address 1024 + 3 was never
written. -/
theorem C2_array_round_trip_drops_end_register :
    arrayRoundTrip.registers 0 = 10 ∧
    arrayRoundTrip.registers 1 = 20 ∧
    arrayRoundTrip.registers 2 = 30 ∧
    arrayRoundTrip.registers 3 = 0 ∧
    arrayStored.memory 1027 = 0 :=
  ⟨by decide, by decide, by decide, by decide, by decide⟩

/-! ## Claim C3: the blocking key read -/

/-- The LdKey arm of exec_instr loops without a break: for any key budget
and any stream of key events, the loop never returns. -/
theorem ldKeyLoop_incomplete (register : Register) :
    ∀ (fuel : Nat) (keys : List Nat) (m : Machine),
      ldKeyLoop register fuel keys m = .incomplete := by
  intro fuel
  induction fuel with
  | zero => intro keys m; rfl
  | succ n ih =>
    intro keys m
    cases keys with
    | nil => rfl
    | cons k rest => exact ih rest _

/-- Claim C3 evaluated on the code: executing LdKey never completes the step,
for every key-event budget and key stream — the `loop` in machine.rs lines
187 to 190 has no break, so after the first reported key press the executor
keeps waiting for further keys instead of finishing the step and advancing
the program counter by 2. -/
theorem C3_ldkey_step_never_completes (rnd : Nat) (keys : List Nat)
    (pressed : Nat → Bool) (fuel : Nat) (register : Register) (m : Machine) :
    exec_instr rnd keys pressed fuel (.LdKey register) m = .incomplete := by
  simp only [exec_instr, exec_value, ldKeyLoop_incomplete]

/-! ## Claim C4: surfacing of decode errors -/

/-- A machine whose program bytes at the program counter encode 0x5001, a
word that decodes to an error (family 5 with nonzero low nibble). -/
def badOpcodeMachine : Machine :=
  { zeroMachine with memory := updf (updf zeroMachine.memory 512 0x50) 513 0x01 }

/-- Claim C4 as stated is false on the code: on a decode error, exec_next
panics (the `.unwrap()` in machine.rs line 87) and no error value is returned
to the caller — the Rust `exec_next` returns unit and has no error channel. -/
theorem C4_counterexample_panic_not_error_value :
    exec_next 0 [] (fun _ => false) 0 badOpcodeMachine = .panic ∧
    StepOutcome.isErrValue (exec_next 0 [] (fun _ => false) 0 badOpcodeMachine)
      = false :=
  ⟨rfl, rfl⟩

/-- Claim C4 amended: when the fetched word decodes to an error, exec_next
aborts with a panic — a terminal condition that neither skips the
instruction nor continues execution, and mutates no machine state — rather
than returning an error value. -/
theorem C4_decode_error_panics (rnd : Nat) (keys : List Nat)
    (pressed : Nat → Bool) (fuel : Nat) (m : Machine)
    (e : DecodeInstructionError) (h : decode (fetch m) = .error e) :
    exec_next rnd keys pressed fuel m = .panic := by
  simp only [exec_next, h]

/-- Witness for C4: the amended theorem applied to the concrete machine whose
program word is 0x5001. -/
theorem C4_decode_error_panics_witness :
    exec_next 1 [] (fun _ => false) 3 badOpcodeMachine = .panic :=
  C4_decode_error_panics 1 [] (fun _ => false) 3 badOpcodeMachine
    ⟨0x5001, .IllegalOpCode⟩ rfl

/-! ## Claim C5: shape of the program counter after a step -/

/-- A machine whose program bytes at the program counter encode 0x1301, a
jump to the odd address 0x301. -/
def oddJumpMachine : Machine :=
  { zeroMachine with memory := updf (updf zeroMachine.memory 512 0x13) 513 0x01 }

/-- Claim C5 as stated is false on the code: a program image may jump to an
odd address, so evenness of the program counter is not an invariant — from
counter 512, executing the fetched word 0x1301 leaves the counter at 769,
which is odd. -/
theorem C5_counterexample_odd_jump_target :
    (theMachine (exec_next 0 [] (fun _ => false) 0 oddJumpMachine)
        zeroMachine).program_counter = 769 ∧
    769 % 2 = 1 :=
  ⟨by decide, by decide⟩

/-- The program-counter value assigned by the control-flow phase for the
instructions that set it directly: the address operand for Jmp and Call, the
popped stack entry for Ret, and the base address plus register V0 (as a u16)
for JmpOff. -/
def ControlTarget (i : Instruction) (m : Machine) (pc : Nat) : Prop :=
  match i with
  | .Jmp addr => pc = addr
  | .Call addr => pc = addr
  | .Ret => pc = m.read_address (m.stack_pointer - ADDR_SIZE)
  | .JmpOff base_addr => pc = (base_addr + m.registers Register.V0.toNat) % 65536
  | _ => False

/-- Claim C5 amended: after any completed execution step the program counter
is the next sequential instruction (+2), a skipped-over instruction (+4), or
the target assigned by a jump, call, return or offset-jump — but such targets
are arbitrary addresses from the program image, so the counter need not stay
even (see the counterexample). -/
theorem C5_pc_after_step (rnd : Nat) (keys : List Nat) (pressed : Nat → Bool)
    (fuel : Nat) (i : Instruction) (m m' : Machine)
    (h : exec_instr rnd keys pressed fuel i m = .ok m') :
    m'.program_counter = m.program_counter + 2 ∨
    m'.program_counter = m.program_counter + 4 ∨
    ControlTarget i m m'.program_counter := by
  cases i <;>
    simp only [exec_instr, exec_value, exec_flow, ldKeyLoop_incomplete] at h <;>
    (try split at h) <;>
    (first | exact StepOutcome.noConfusion h | injection h with h) <;>
    subst h <;>
    simp [ControlTarget, OPCODE_SIZE]

/-- The machine produced by executing a jump to 0x300 from the initial state. -/
def jumpOutcome : Machine :=
  theMachine (exec_instr 0 [] (fun _ => false) 0 (.Jmp 0x300) zeroMachine)
    zeroMachine

/-- Witness for C5: the amended theorem applied to a concrete jump step. -/
theorem C5_pc_after_step_witness :
    jumpOutcome.program_counter = zeroMachine.program_counter + 2 ∨
    jumpOutcome.program_counter = zeroMachine.program_counter + 4 ∨
    ControlTarget (.Jmp 0x300) zeroMachine jumpOutcome.program_counter :=
  C5_pc_after_step 0 [] (fun _ => false) 0 (.Jmp 0x300) zeroMachine jumpOutcome rfl

/-! ## Claim C6: shift semantics -/

/-- A register other than VF has a discriminant other than 15. -/
theorem Register.toNat_ne_fifteen {r : Register} (h : r ≠ .VF) : r.toNat ≠ 15 := by
  cases r <;> simp_all [Register.toNat]

/-- Reading an updated function at the updated index yields the new value. -/
theorem updf_same (f : Nat → Nat) (i v : Nat) : updf f i v i = v := by
  simp [updf]

/-- Reading an updated function at a different index is unaffected. -/
theorem updf_other (f : Nat → Nat) {i j : Nat} (v : Nat) (h : j ≠ i) :
    updf f i v j = f j := by
  simp [updf, h]

set_option maxRecDepth 2000 in
/-- For byte values, masking with 0x80 yields the raw top-bit pattern: 128
when the top bit is set, 0 otherwise. -/
theorem and_msb_eq_ite : ∀ v < 256, v &&& 128 = if 128 ≤ v then 128 else 0 := by
  decide

/-- Claim C6: for a source register holding byte v and a destination other
than the flag register, Shr stores the halved value v / 2 in the destination
and sets register 15 to the shifted-out least significant bit v % 2, and Shl
stores the doubled value truncated to a byte, (2 * v) % 256, and sets
register 15 to the raw most-significant-bit pattern of v — 128 rather than 1
when the top bit is set, 0 otherwise. -/
theorem C6_shift_semantics (rnd : Nat) (keys : List Nat) (pressed : Nat → Bool)
    (fuel : Nat) (dest src : Register) (m : Machine)
    (hv : m.registers src.toNat < 256) (hd : dest ≠ .VF) :
    exec_instr rnd keys pressed fuel (.Shr dest src) m =
      .ok (theMachine (exec_instr rnd keys pressed fuel (.Shr dest src) m)
        zeroMachine) ∧
    (theMachine (exec_instr rnd keys pressed fuel (.Shr dest src) m)
        zeroMachine).registers dest.toNat = m.registers src.toNat / 2 ∧
    (theMachine (exec_instr rnd keys pressed fuel (.Shr dest src) m)
        zeroMachine).registers Register.VF.toNat = m.registers src.toNat % 2 ∧
    exec_instr rnd keys pressed fuel (.Shl dest src) m =
      .ok (theMachine (exec_instr rnd keys pressed fuel (.Shl dest src) m)
        zeroMachine) ∧
    (theMachine (exec_instr rnd keys pressed fuel (.Shl dest src) m)
        zeroMachine).registers dest.toNat = (2 * m.registers src.toNat) % 256 ∧
    (theMachine (exec_instr rnd keys pressed fuel (.Shl dest src) m)
        zeroMachine).registers Register.VF.toNat =
      (if 128 ≤ m.registers src.toNat then 128 else 0) := by
  have hd15 : dest.toNat ≠ Register.VF.toNat := Register.toNat_ne_fifteen hd
  refine ⟨rfl, ?_, ?_, rfl, ?_, ?_⟩
  · show updf (updf m.registers dest.toNat (m.registers src.toNat >>> 1))
        Register.VF.toNat (m.registers src.toNat &&& 1) dest.toNat = _
    rw [updf_other _ _ hd15, updf_same, Nat.shiftRight_eq_div_pow]
  · show updf (updf m.registers dest.toNat (m.registers src.toNat >>> 1))
        Register.VF.toNat (m.registers src.toNat &&& 1) Register.VF.toNat = _
    rw [updf_same]
    exact Nat.and_one_is_mod _
  · show updf (updf m.registers dest.toNat ((m.registers src.toNat <<< 1) % 256))
        Register.VF.toNat (m.registers src.toNat &&& 128) dest.toNat = _
    rw [updf_other _ _ hd15, updf_same, Nat.shiftLeft_eq, pow_one, Nat.mul_comm]
  · show updf (updf m.registers dest.toNat ((m.registers src.toNat <<< 1) % 256))
        Register.VF.toNat (m.registers src.toNat &&& 128) Register.VF.toNat = _
    rw [updf_same]
    exact and_msb_eq_ite _ hv

/-- A machine whose register V1 holds 0x81. -/
def shiftMachine : Machine :=
  { zeroMachine with registers := updf zeroMachine.registers 1 0x81 }

/-- Witness for C6: the theorem applied to a machine whose source register
V1 holds 0x81. -/
theorem C6_shift_semantics_witness :
    exec_instr 0 [] (fun _ => false) 0 (.Shr .V0 .V1) shiftMachine =
      .ok (theMachine (exec_instr 0 [] (fun _ => false) 0 (.Shr .V0 .V1)
        shiftMachine) zeroMachine) ∧
    (theMachine (exec_instr 0 [] (fun _ => false) 0 (.Shr .V0 .V1) shiftMachine)
        zeroMachine).registers Register.V0.toNat =
      shiftMachine.registers Register.V1.toNat / 2 ∧
    (theMachine (exec_instr 0 [] (fun _ => false) 0 (.Shr .V0 .V1) shiftMachine)
        zeroMachine).registers Register.VF.toNat =
      shiftMachine.registers Register.V1.toNat % 2 ∧
    exec_instr 0 [] (fun _ => false) 0 (.Shl .V0 .V1) shiftMachine =
      .ok (theMachine (exec_instr 0 [] (fun _ => false) 0 (.Shl .V0 .V1)
        shiftMachine) zeroMachine) ∧
    (theMachine (exec_instr 0 [] (fun _ => false) 0 (.Shl .V0 .V1) shiftMachine)
        zeroMachine).registers Register.V0.toNat =
      (2 * shiftMachine.registers Register.V1.toNat) % 256 ∧
    (theMachine (exec_instr 0 [] (fun _ => false) 0 (.Shl .V0 .V1) shiftMachine)
        zeroMachine).registers Register.VF.toNat =
      (if 128 ≤ shiftMachine.registers Register.V1.toNat then 128 else 0) :=
  C6_shift_semantics 0 [] (fun _ => false) 0 .V0 .V1 shiftMachine
    (by decide) (by decide)

/-! ## Claim C7: call and return round trip -/

/-- Claim C7: Call pushes the 2-byte return address, the current program
counter plus 2, big-endian at the stack pointer, increments the stack
pointer by 2 and jumps to the operand address; Ret decrements the stack
pointer by 2 and loads the popped address into the program counter; the
round trip restores the counter to its pre-call value plus 2 and the stack
pointer to its pre-call value. -/
theorem C7_call_ret_round_trip (rnd : Nat) (keys : List Nat)
    (pressed : Nat → Bool) (fuel : Nat) (addr : Nat) (m mc mr : Machine)
    (hc : exec_instr rnd keys pressed fuel (.Call addr) m = .ok mc)
    (hr : exec_instr rnd keys pressed fuel .Ret mc = .ok mr) :
    mc.program_counter = addr ∧
    mc.stack_pointer = m.stack_pointer + 2 ∧
    mc.read_address m.stack_pointer = (m.program_counter + 2) % 65536 ∧
    mr.program_counter = (m.program_counter + 2) % 65536 ∧
    mr.stack_pointer = m.stack_pointer := by
  simp only [exec_instr, exec_value, exec_flow, StepOutcome.ok.injEq] at hc hr
  subst hc
  subst hr
  refine ⟨rfl, rfl, ?_, ?_, rfl⟩ <;>
    simp [Machine.read_address, updf, ADDR_SIZE, OPCODE_SIZE] <;>
    omega

/-- The machine after calling 0x300 from the initial state. -/
def callOutcome : Machine :=
  theMachine (exec_instr 0 [] (fun _ => false) 0 (.Call 0x300) zeroMachine)
    zeroMachine

/-- The machine after returning from `callOutcome`. -/
def retOutcome : Machine :=
  theMachine (exec_instr 0 [] (fun _ => false) 0 .Ret callOutcome) zeroMachine

/-- Witness for C7: the round trip from counter 512 through address 0x300,
yielding counter 514 and the original stack pointer 80. -/
theorem C7_call_ret_round_trip_witness :
    callOutcome.program_counter = 0x300 ∧
    callOutcome.stack_pointer = zeroMachine.stack_pointer + 2 ∧
    callOutcome.read_address zeroMachine.stack_pointer =
      (zeroMachine.program_counter + 2) % 65536 ∧
    retOutcome.program_counter = (zeroMachine.program_counter + 2) % 65536 ∧
    retOutcome.stack_pointer = zeroMachine.stack_pointer :=
  C7_call_ret_round_trip 0 [] (fun _ => false) 0 0x300 zeroMachine
    callOutcome retOutcome rfl rfl

/-! ## Claim C8: draw flips with wraparound -/

/-- Flipping the same pixel twice restores the grid. -/
theorem flipPixel_flipPixel (p : Pixels) (r c : Nat) :
    flipPixel (flipPixel p r c) r c = p := by
  funext a b
  by_cases h : a = r ∧ b = c <;> simp [flipPixel, h]

/-- Pixel flips at arbitrary positions commute. -/
theorem flipPixel_comm (p : Pixels) (a b r c : Nat) :
    flipPixel (flipPixel p a b) r c = flipPixel (flipPixel p r c) a b := by
  funext u v
  simp only [flipPixel]
  split_ifs <;> simp

/-- The column loop of draw commutes with a pixel flip. -/
theorem drawCols_flip (x yi row : Nat) :
    ∀ (n j : Nat) (p : Pixels) (r c : Nat),
      drawCols x yi row j n (flipPixel p r c)
        = flipPixel (drawCols x yi row j n p) r c := by
  intro n
  induction n with
  | zero => intro j p r c; rfl
  | succ k ih =>
    intro j p r c
    by_cases hcond : (0x80 >>> j) &&& row ≠ 0
    · simp only [drawCols, if_pos hcond]
      rw [flipPixel_comm, ih]
    · simp only [drawCols, if_neg hcond]
      rw [ih]

/-- Running the column loop of draw twice restores the grid. -/
theorem drawCols_drawCols (x yi row : Nat) :
    ∀ (n j : Nat) (p : Pixels),
      drawCols x yi row j n (drawCols x yi row j n p) = p := by
  intro n
  induction n with
  | zero => intro j p; rfl
  | succ k ih =>
    intro j p
    by_cases hcond : (0x80 >>> j) &&& row ≠ 0
    · simp only [drawCols, if_pos hcond]
      rw [drawCols_flip, ih, flipPixel_flipPixel]
    · simp only [drawCols, if_neg hcond]
      rw [ih]

/-- The row loop of draw commutes with a pixel flip. -/
theorem drawRows_flip (x y : Nat) :
    ∀ (s : List Nat) (i : Nat) (p : Pixels) (r c : Nat),
      drawRows x y i s (flipPixel p r c)
        = flipPixel (drawRows x y i s p) r c := by
  intro s
  induction s with
  | nil => intro i p r c; rfl
  | cons row rest ih =>
    intro i p r c
    simp only [drawRows]
    rw [drawCols_flip, ih]

/-- The row loop of draw commutes with any column loop. -/
theorem drawRows_drawCols (x y a yi row : Nat) :
    ∀ (n j : Nat) (s : List Nat) (i : Nat) (p : Pixels),
      drawRows x y i s (drawCols a yi row j n p)
        = drawCols a yi row j n (drawRows x y i s p) := by
  intro n
  induction n with
  | zero => intro j s i p; rfl
  | succ k ih =>
    intro j s i p
    by_cases hcond : (0x80 >>> j) &&& row ≠ 0
    · simp only [drawCols, if_pos hcond]
      rw [ih, drawRows_flip]
    · simp only [drawCols, if_neg hcond]
      rw [ih]

/-- Running the row loop of draw twice restores the grid. -/
theorem drawRows_drawRows (x y : Nat) :
    ∀ (s : List Nat) (i : Nat) (p : Pixels),
      drawRows x y i s (drawRows x y i s p) = p := by
  intro s
  induction s with
  | nil => intro i p; rfl
  | cons row rest ih =>
    intro i p
    simp only [drawRows]
    rw [drawRows_drawCols, ih, drawCols_drawCols]

set_option maxHeartbeats 1600000 in
/-- Claim C8: drawing flips pixels at coordinates wrapped modulo the 64 by
32 grid and never clips.  Drawing any sprite twice at the same coordinates
restores every pixel to its original state, and a full 8-pixel row drawn at
x = 63 lights columns 63 and 0 through 6 of its row: the 8th column wraps to
x = 6, and column 7 - where clipping-free sequential placement would end -
stays off. -/
theorem C8_draw_double_identity_and_wraparound :
    (∀ (p : Pixels) (x y : Nat) (sprite : List Nat) (r c : Nat),
      Display.draw (Display.draw p x y sprite) x y sprite r c = p r c) ∧
    Display.draw (fun _ _ => false) 63 0 [0xFF] 0 6 = true ∧
    Display.draw (fun _ _ => false) 63 0 [0xFF] 0 63 = true ∧
    Display.draw (fun _ _ => false) 63 0 [0xFF] 0 7 = false := by
  refine ⟨?_, by decide, by decide, by decide⟩
  intro p x y sprite r c
  rw [Display.draw, Display.draw, drawRows_drawRows]

/-! ## Claim C9: register decoding is total -/

/-- Whether a decode result is the register-decoding error branch. -/
def isRegisterDecodeError : Except DecodeInstructionError Instruction → Bool
  | .error e =>
    match e.error_kind with
    | .RegisterDecodeError _ => true
    | .IllegalOpCode => false
  | .ok _ => false

/-- Nibble-to-register conversion succeeds on all of 0..15. -/
theorem decodeReg_ok (w n : Nat) (h : n < 16) : ∃ r, decodeReg w n = .ok r := by
  interval_cases n <;> exact ⟨_, rfl⟩

/-- The high operand nibble extracted by decode is below 16. -/
theorem nibble_lt_16_hi (w : Nat) : (w &&& 0x0F00) >>> 8 < 16 := by
  have h1 : w &&& 0x0F00 ≤ 0x0F00 := Nat.and_le_right
  have h2 : (w &&& 0x0F00) >>> 8 = (w &&& 0x0F00) / 256 := by
    rw [Nat.shiftRight_eq_div_pow]
  omega

/-- The low operand nibble extracted by decode is below 16. -/
theorem nibble_lt_16_lo (w : Nat) : (w &&& 0x00F0) >>> 4 < 16 := by
  have h1 : w &&& 0x00F0 ≤ 0x00F0 := Nat.and_le_right
  have h2 : (w &&& 0x00F0) >>> 4 = (w &&& 0x00F0) / 16 := by
    rw [Nat.shiftRight_eq_div_pow]
  omega

set_option maxHeartbeats 4000000 in
/-- Claim C9: decode never returns a register-decoding error for any input
word: every operand nibble it extracts lies in 0..15, where the
nibble-to-register conversion is total, so the RegisterDecodeError branch is
unreachable. -/
theorem C9_register_decode_never_fails (w : Nat) :
    isRegisterDecodeError (decode w) = false := by
  obtain ⟨r1, h1⟩ := decodeReg_ok w _ (nibble_lt_16_hi w)
  obtain ⟨r2, h2⟩ := decodeReg_ok w _ (nibble_lt_16_lo w)
  simp only [decode, h1, h2]
  repeat' split
  all_goals rfl

/-! ## Claim C10: Sys decodes but is unimplemented -/

/-- Claim C10: every word with top nibble 0 other than 0x00E0 and 0x00EE
decodes successfully to Sys with the low 12 bits as operand, and executing a
Sys instruction reaches the catch-all `unimplemented!()` of exec_instr and
panics instead of being ignored or advancing the program counter. -/
theorem C10_sys_decodes_then_panics (w rnd : Nat) (keys : List Nat)
    (pressed : Nat → Bool) (fuel a : Nat) (m : Machine)
    (h0 : w &&& 0xF000 = 0) (hE0 : w ≠ 0x00E0) (hEE : w ≠ 0x00EE) :
    decode w = .ok (.Sys (w &&& 0x0FFF)) ∧
    exec_instr rnd keys pressed fuel (.Sys a) m = .panic := by
  refine ⟨?_, rfl⟩
  rw [decode.eq_def, h0]
  split <;> simp_all

/-- Witness for C10 at the word 0x0123. -/
theorem C10_sys_decodes_then_panics_witness :
    decode 0x0123 = .ok (.Sys (0x0123 &&& 0x0FFF)) ∧
    exec_instr 0 [] (fun _ => false) 0 (.Sys 0x123) zeroMachine = .panic :=
  C10_sys_decodes_then_panics 0x0123 0 [] (fun _ => false) 0 0x123 zeroMachine
    (by decide) (by decide) (by decide)

end Chemu
